import Mathlib

/-
Shallow embedding of src/app/static/shift_detail.js: debounced autosave
for HTML forms.  The script selects every form carrying the class
"autosave-form", gives each a closure-local timer handle `timeoutId`
(initially null), and on every `input` or `change` event runs
`scheduleSave`: if `form.dataset.saveUrl` is falsy it returns; otherwise
it clears the outstanding timer (if the handle is truthy) and schedules a
fresh 800 ms timer whose callback serializes the form (FormData) at firing
time and POSTs it to the saved URL with header X-Requested-With: fetch,
swallowing any rejection with .catch(() => {}).

Time is modelled as Nat milliseconds.  Browser timer ids are positive
integers, so the model allocates ids from a counter starting at 1; the
JavaScript truthiness tests (`!form.dataset.saveUrl`, `if (timeoutId)`)
are modelled exactly (null/undefined and "" are falsy, 0 would be falsy).
The set of pending timers is kept as a list so that the single-timer
invariant is a theorem about the code, not an assumption of the model.
-/

namespace ShiftDetail

/-- Transport outcome of one fetch call. -/
inductive FetchOutcome
  | success
  | transportError
deriving DecidableEq, Repr

/-- Settled state of a promise. -/
inductive PromiseState
  | fulfilled
  | rejected
deriving DecidableEq, Repr

/-- The promise returned by `fetch(...)`: it rejects exactly on transport
failure. -/
def fetchPromise : FetchOutcome → PromiseState
  | .success => .fulfilled
  | .transportError => .rejected

/-- The `.catch(() => \x7b\x7d)` handler from line 19: a rejection is handled
and the resulting promise fulfills (the handler returns undefined); a
fulfilled promise passes through. -/
def catchHandler : PromiseState → PromiseState
  | .rejected => .fulfilled
  | .fulfilled => .fulfilled

/-- Settled state of `fetch(...).catch(() => \x7b\x7d)`. -/
def sendPromise (o : FetchOutcome) : PromiseState :=
  catchHandler (fetchPromise o)

/-- Record of one network call issued by the timer callback
(lines 14-19). -/
structure NetworkCall where
  time : Nat
  url : String
  method : String
  headers : List (String × String)
  body : List (String × String)
  outcome : PromiseState
deriving DecidableEq, Repr

/-- A form element.  `saveUrl` models `form.dataset.saveUrl` (`none` when
the data attribute is absent); `fields` gives the form's field values at
each instant, so `FormData(form)` taken at time `t` is `fields t`. -/
structure Form where
  id : Nat
  classes : List String
  saveUrl : Option String
  fields : Nat → List (String × String)

/-- Per-form mutable state: the closure variable `timeoutId` (line 4),
the timers scheduled and not yet fired or cancelled, the next timer id
the environment will hand out (browser ids are ≥ 1), and the calls
issued so far. -/
structure FormState where
  timeoutId : Option Nat
  pendingTimers : List (Nat × Nat)
  nextId : Nat
  calls : List NetworkCall
deriving DecidableEq, Repr

/-- State before any event: `let timeoutId = null`, nothing pending. -/
def initFormState : FormState :=
  { timeoutId := none, pendingTimers := [], nextId := 1, calls := [] }

/-- JavaScript truthiness of the `timeoutId` handle (line 10):
null is falsy, a number is truthy iff nonzero. -/
def truthy : Option Nat → Bool
  | none => false
  | some id => id != 0

/-- JavaScript falsiness of `form.dataset.saveUrl` (line 7): undefined
(attribute absent) and the empty string are falsy. -/
def falsyUrl : Option String → Bool
  | none => true
  | some u => u == ""

/-- `window.clearTimeout(timeoutId)` (line 11): the timer with that id,
if still pending, is cancelled; clearing an expired or unknown id is a
no-op. -/
def clearTimeout (s : FormState) (id : Nat) : FormState :=
  { s with pendingTimers := s.pendingTimers.filter (fun p => decide (p.1 ≠ id)) }

/-- `timeoutId = window.setTimeout(callback, 800)` (lines 13-20): a fresh
timer id is allocated, a timer due at `fireAt` is added, and the handle
is stored. -/
def setTimeout (s : FormState) (fireAt : Nat) : FormState :=
  { s with timeoutId := some s.nextId
         , pendingTimers := s.pendingTimers ++ [(s.nextId, fireAt)]
         , nextId := s.nextId + 1 }

/-- The call issued when a timer fires at `fireAt` (lines 14-19): the
callback reads `form.dataset.saveUrl` and serializes the form at firing
time, POSTs with the background-fetch marker header, and its promise is
settled by the catch handler. -/
def mkCall (oracle : Nat → FetchOutcome) (f : Form) (fireAt : Nat) : NetworkCall :=
  { time := fireAt
  , url := f.saveUrl.getD ""
  , method := "POST"
  , headers := [("X-Requested-With", "fetch")]
  , body := f.fields fireAt
  , outcome := sendPromise (oracle fireAt) }

/-- `scheduleSave` (lines 6-21): return if the url is falsy; clear the
outstanding timer if the handle is truthy; schedule a new 800 ms timer. -/
def scheduleSave (f : Form) (t : Nat) (s : FormState) : FormState :=
  if falsyUrl f.saveUrl then s
  else
    setTimeout (if truthy s.timeoutId then clearTimeout s (s.timeoutId.getD 0) else s)
      (t + 800)

/-- Event-loop step at time `now` before a handler runs: every pending
timer whose due time has passed fires (in scheduling order), issuing its
call. -/
def fireDue (oracle : Nat → FetchOutcome) (f : Form) (now : Nat) (s : FormState) : FormState :=
  { s with pendingTimers := s.pendingTimers.filter (fun p => decide (¬ p.2 ≤ now))
         , calls := s.calls ++
             (s.pendingTimers.filter (fun p => decide (p.2 ≤ now))).map
               (fun p => mkCall oracle f p.2) }

/-- One `input`/`change` event on the form at time `t`: due timers fire
first, then the listener (lines 23-24 both bind `scheduleSave`) runs. -/
def handleEvent (oracle : Nat → FetchOutcome) (f : Form) (t : Nat) (s : FormState) : FormState :=
  scheduleSave f t (fireDue oracle f t s)

/-- Fold-ready form of `handleEvent`. -/
def stepEv (oracle : Nat → FetchOutcome) (f : Form) : FormState → Nat → FormState :=
  fun s t => handleEvent oracle f t s

/-- End of the timeline: any still-pending timer eventually fires at its
own due time. -/
def finalFire (oracle : Nat → FetchOutcome) (f : Form) (s : FormState) : FormState :=
  { s with pendingTimers := []
         , calls := s.calls ++ s.pendingTimers.map (fun p => mkCall oracle f p.2) }

/-- Complete run of one form: events at the listed times (in order), then
all remaining timers fire. -/
def runForm (oracle : Nat → FetchOutcome) (f : Form) (L : List Nat) : FormState :=
  finalFire oracle f (L.foldl (stepEv oracle f) initFormState)

/-- Kind of a DOM event the script listens for. -/
inductive EvKind
  | input
  | change
deriving DecidableEq, Repr

/-- A DOM event dispatched to a form, identified by the form's id. -/
structure Ev where
  time : Nat
  kind : EvKind
  formId : Nat
deriving Repr

/-- `document.querySelectorAll(".autosave-form")` at initialization
(line 1): the forms of the document carrying the marker class, in
document order. -/
def autosaveForms (doc : List Form) : List Form :=
  doc.filter (fun f => decide ("autosave-form" ∈ f.classes))

/-- Look a form up by id. -/
def findForm (doc : List Form) (i : Nat) : Option Form :=
  doc.find? (fun f => decide (f.id = i))

/-- The listener bound for either event kind: lines 23 and 24 both attach
`scheduleSave`, so the handler does not depend on the kind. -/
def listener (f : Form) : EvKind → Nat → FormState → FormState
  | .input => fun t s => scheduleSave f t s
  | .change => fun t s => scheduleSave f t s

/-- Dispatch one DOM event over the whole document.  Only forms captured
by the initialization query (line 1) have listeners attached (lines 3,
23-24); an event on any other form runs no handler and changes nothing.
A handled event first lets the target form's due timers fire, then runs
the listener; only the target form's state slot is written. -/
def dispatch (oracle : Nat → FetchOutcome) (initialDoc : List Form)
    (st : Nat → FormState) (e : Ev) : Nat → FormState :=
  match findForm (autosaveForms initialDoc) e.formId with
  | some f =>
      fun i => if i = e.formId
               then listener f e.kind e.time (fireDue oracle f e.time (st i))
               else st i
  | none => st

/-- Per-form states after dispatching a list of DOM events, starting from
the pristine document. -/
def docStates (oracle : Nat → FetchOutcome) (initialDoc : List Form)
    (E : List Ev) : Nat → FormState :=
  E.foldl (dispatch oracle initialDoc) (fun _ => initFormState)

/-- Oracle under which every transport attempt succeeds. -/
def allSuccess : Nat → FetchOutcome := fun _ => .success

/-- Field timeline of the spec scenario: the text field holds "x" from
t=0 and "xy" from t=300. -/
def demoFields : Nat → List (String × String) := fun t =>
  [("note", if t < 300 then "x" else "xy")]

/-- The form of the spec scenario: marked for autosave, endpoint
/save/42. -/
def demoForm : Form :=
  { id := 1, classes := ["autosave-form"], saveUrl := some "/save/42", fields := demoFields }

/-- Consecutive-event relation of a debounce burst: the next event comes
later, but less than 800 ms after the previous one. -/
def BurstRel (a b : Nat) : Prop := a < b ∧ b < a + 800

/-- Every recorded call was produced by the timer callback: it is
exactly `mkCall` at its own firing time. -/
def CallsOK (oracle : Nat → FetchOutcome) (f : Form) (s : FormState) : Prop :=
  ∀ c ∈ s.calls, c = mkCall oracle f c.time

/-- Timer-handle invariant: at most one timer pending, any pending timer
is the one the stored handle names, ids are positive and the counter
started at 1. -/
def TimerInv (s : FormState) : Prop :=
  s.pendingTimers.length ≤ 1 ∧
  (∀ p ∈ s.pendingTimers, s.timeoutId = some p.1) ∧
  1 ≤ s.nextId ∧
  (∀ j, s.timeoutId = some j → 0 < j)

instance : DecidableRel BurstRel := fun a b =>
  inferInstanceAs (Decidable (a < b ∧ b < a + 800))

/-- Oracle under which every transport attempt fails. -/
def allFail : Nat → FetchOutcome := fun _ => .transportError

/-- Field timeline passing through "a", "ab", "abc" during one quiet
window. -/
def demoFields3 : Nat → List (String × String) := fun t =>
  [("note", if t < 200 then "a" else if t < 400 then "ab" else "abc")]

/-- A marked form whose field grows to "abc" while the burst is still
running. -/
def demoForm3 : Form :=
  { id := 3, classes := ["autosave-form"], saveUrl := some "/save/7"
  , fields := demoFields3 }

/-- A marked form that declares no save endpoint at all. -/
def plainForm : Form :=
  { id := 4, classes := ["autosave-form"], saveUrl := none
  , fields := fun _ => [("note", "x")] }

/-- A marked form whose save-endpoint attribute is present but empty. -/
def emptyUrlForm : Form :=
  { id := 5, classes := ["autosave-form"], saveUrl := some ""
  , fields := fun _ => [("note", "x")] }

example :
    (runForm allSuccess demoForm [0, 300]).calls =
      [mkCall allSuccess demoForm 1100] := by decide

example : mkCall allSuccess demoForm 1100 =
    { time := 1100, url := "/save/42", method := "POST"
    , headers := [("X-Requested-With", "fetch")]
    , body := [("note", "xy")], outcome := .fulfilled } := by decide

/-- Whatever the transport outcome, the promise of a send settles
fulfilled: the catch handler absorbs the rejection. -/
lemma sendPromise_fulfilled (o : FetchOutcome) : sendPromise o = .fulfilled := by
  cases o <;> rfl

/-- The call record does not depend on the transport oracle except
through the always-fulfilled settled state. -/
lemma mkCall_oracle (o₁ o₂ : Nat → FetchOutcome) (f : Form) (t : Nat) :
    mkCall o₁ f t = mkCall o₂ f t := by
  simp [mkCall, sendPromise_fulfilled]

/-- The very first qualifying event, from the pristine state: nothing is
due, the null handle is falsy so nothing is cleared, and timer 1 is
scheduled 800 ms out. -/
lemma first_event (oracle : Nat → FetchOutcome) (f : Form) (url : String)
    (hu : f.saveUrl = some url) (hne : url ≠ "") (t0 : Nat) :
    stepEv oracle f initFormState t0 = ⟨some 1, [(1, t0 + 800)], 2, []⟩ := by
  simp [stepEv, handleEvent, fireDue, scheduleSave, setTimeout, truthy, falsyUrl,
    initFormState, hu, hne]

/-- One event inside a burst: the pending timer is not yet due, so it is
cancelled and replaced by a fresh one due 800 ms after this event. -/
lemma burst_step (oracle : Nat → FetchOutcome) (f : Form) (url : String)
    (hu : f.saveUrl = some url) (hne : url ≠ "") (t t1 k : Nat)
    (c : List NetworkCall) (hk : 0 < k) (h2 : t1 < t + 800) :
    stepEv oracle f ⟨some k, [(k, t + 800)], k + 1, c⟩ t1 =
      ⟨some (k + 1), [(k + 1, t1 + 800)], k + 2, c⟩ := by
  have h2' : ¬ t + 800 ≤ t1 := by omega
  have hk' : k ≠ 0 := by omega
  simp [stepEv, handleEvent, fireDue, scheduleSave, setTimeout, clearTimeout,
    truthy, falsyUrl, hu, hne, hk', h2']

/-- Folding a whole burst from a state holding one live timer: every
event cancels the previous timer and schedules its own, so the run ends
with a single timer due 800 ms after the last event, and no call is
issued along the way. -/
lemma fold_burst (oracle : Nat → FetchOutcome) (f : Form) (url : String)
    (hu : f.saveUrl = some url) (hne : url ≠ "") (L : List Nat) :
    ∀ (t k : Nat) (c : List NetworkCall), 0 < k →
      List.Chain BurstRel t L →
      L.foldl (stepEv oracle f) ⟨some k, [(k, t + 800)], k + 1, c⟩ =
        ⟨some (k + L.length), [(k + L.length, L.getLastD t + 800)], k + L.length + 1, c⟩ := by
  induction L with
  | nil => intro t k c hk _; simp
  | cons t1 L ih =>
    intro t k c hk hch
    rw [List.chain_cons] at hch
    obtain ⟨⟨h1, h2⟩, hch'⟩ := hch
    rw [List.foldl_cons, burst_step oracle f url hu hne t t1 k c hk h2,
      ih t1 (k + 1) c (by omega) hch', List.getLastD_cons, List.length_cons]
    have h3 : k + 1 + L.length = k + (L.length + 1) := by omega
    rw [h3]

lemma scheduleSave_calls (f : Form) (t : Nat) (s : FormState) :
    (scheduleSave f t s).calls = s.calls := by
  unfold scheduleSave setTimeout clearTimeout
  by_cases h1 : falsyUrl f.saveUrl <;> by_cases h2 : truthy s.timeoutId <;> simp [h1, h2]

lemma fireDue_timeoutId (oracle : Nat → FetchOutcome) (f : Form) (now : Nat) (s : FormState) :
    (fireDue oracle f now s).timeoutId = s.timeoutId := rfl

lemma callsOK_fireDue (oracle : Nat → FetchOutcome) (f : Form) (now : Nat) (s : FormState)
    (h : CallsOK oracle f s) : CallsOK oracle f (fireDue oracle f now s) := by
  intro c hc
  simp only [fireDue, List.mem_append, List.mem_map] at hc
  rcases hc with hc | ⟨p, _, rfl⟩
  · exact h c hc
  · rfl

lemma callsOK_step (oracle : Nat → FetchOutcome) (f : Form) (t : Nat) (s : FormState)
    (h : CallsOK oracle f s) : CallsOK oracle f (stepEv oracle f s t) := by
  intro c hc
  rw [stepEv, handleEvent, scheduleSave_calls] at hc
  exact callsOK_fireDue oracle f t s h c hc

lemma callsOK_foldl (oracle : Nat → FetchOutcome) (f : Form) (L : List Nat) :
    ∀ s : FormState, CallsOK oracle f s → CallsOK oracle f (L.foldl (stepEv oracle f) s) := by
  induction L with
  | nil => intro s h; exact h
  | cons t L ih =>
    intro s h
    exact ih (stepEv oracle f s t) (callsOK_step oracle f t s h)

lemma callsOK_finalFire (oracle : Nat → FetchOutcome) (f : Form) (s : FormState)
    (h : CallsOK oracle f s) : CallsOK oracle f (finalFire oracle f s) := by
  intro c hc
  simp only [finalFire, List.mem_append, List.mem_map] at hc
  rcases hc with hc | ⟨p, _, rfl⟩
  · exact h c hc
  · rfl

/-- Every call of a complete run is the timer callback's call at its own
firing time. -/
lemma runForm_callsOK (oracle : Nat → FetchOutcome) (f : Form) (L : List Nat) :
    CallsOK oracle f (runForm oracle f L) :=
  callsOK_finalFire oracle f _
    (callsOK_foldl oracle f L initFormState (by intro c hc; simp [initFormState] at hc))

lemma fireDue_oracle (o₁ o₂ : Nat → FetchOutcome) (f : Form) (now : Nat) (s : FormState) :
    fireDue o₁ f now s = fireDue o₂ f now s := by
  simp only [fireDue, mkCall_oracle o₁ o₂]

lemma stepEv_oracle (o₁ o₂ : Nat → FetchOutcome) (f : Form) (s : FormState) (t : Nat) :
    stepEv o₁ f s t = stepEv o₂ f s t := by
  simp only [stepEv, handleEvent, fireDue_oracle o₁ o₂]

lemma foldl_oracle (o₁ o₂ : Nat → FetchOutcome) (f : Form) (L : List Nat) (s : FormState) :
    L.foldl (stepEv o₁ f) s = L.foldl (stepEv o₂ f) s := by
  induction L generalizing s with
  | nil => rfl
  | cons t L ih => rw [List.foldl_cons, List.foldl_cons, stepEv_oracle o₁ o₂, ih]

lemma finalFire_oracle (o₁ o₂ : Nat → FetchOutcome) (f : Form) (s : FormState) :
    finalFire o₁ f s = finalFire o₂ f s := by
  simp only [finalFire, mkCall_oracle o₁ o₂]

/-- The whole run is independent of transport outcomes: nothing in the
script inspects the fetch result. -/
lemma runForm_oracle (o₁ o₂ : Nat → FetchOutcome) (f : Form) (L : List Nat) :
    runForm o₁ f L = runForm o₂ f L := by
  rw [runForm, runForm, foldl_oracle o₁ o₂, finalFire_oracle o₁ o₂]

/-- With a falsy url the handler returns before touching anything, so the
pristine state is a fixed point of an event. -/
lemma inert_step (oracle : Nat → FetchOutcome) (f : Form)
    (hf : falsyUrl f.saveUrl = true) (t : Nat) :
    stepEv oracle f initFormState t = initFormState := by
  simp [stepEv, handleEvent, fireDue, scheduleSave, hf, initFormState]

lemma inert_foldl (oracle : Nat → FetchOutcome) (f : Form)
    (hf : falsyUrl f.saveUrl = true) (L : List Nat) :
    L.foldl (stepEv oracle f) initFormState = initFormState := by
  induction L with
  | nil => rfl
  | cons t L ih => rw [List.foldl_cons, inert_step oracle f hf t, ih]

/-- A form whose url is falsy never leaves the pristine state. -/
lemma inert_run (oracle : Nat → FetchOutcome) (f : Form)
    (hf : falsyUrl f.saveUrl = true) (L : List Nat) :
    runForm oracle f L = initFormState := by
  rw [runForm, inert_foldl oracle f hf L]
  simp [finalFire, initFormState]

lemma timerInv_init : TimerInv initFormState := by
  simp [TimerInv, initFormState]

lemma timerInv_fireDue (oracle : Nat → FetchOutcome) (f : Form) (now : Nat) (s : FormState)
    (h : TimerInv s) : TimerInv (fireDue oracle f now s) := by
  obtain ⟨h1, h2, h3, h4⟩ := h
  refine ⟨le_trans (List.length_filter_le _ _) h1, ?_, h3, h4⟩
  intro p hp
  exact h2 p (List.mem_of_mem_filter hp)

/-- Under the invariant, a non-falsy `scheduleSave` always lands in the
same state: old timer gone, exactly the fresh timer pending, the handle
naming it. -/
lemma scheduleSave_eq (f : Form) (t : Nat) (s : FormState)
    (hf : falsyUrl f.saveUrl = false)
    (hmem : ∀ p ∈ s.pendingTimers, s.timeoutId = some p.1)
    (hpos : ∀ j, s.timeoutId = some j → 0 < j) :
    scheduleSave f t s = ⟨some s.nextId, [(s.nextId, t + 800)], s.nextId + 1, s.calls⟩ := by
  unfold scheduleSave
  rw [hf]
  by_cases ht : truthy s.timeoutId
  · obtain ⟨k, hk⟩ : ∃ k, s.timeoutId = some k := by
      cases hts : s.timeoutId with
      | none => rw [hts] at ht; simp [truthy] at ht
      | some k => exact ⟨k, rfl⟩
    have hk0 : 0 < k := hpos k hk
    have hpend : s.pendingTimers.filter (fun p => decide (p.1 ≠ k)) = [] := by
      rw [List.filter_eq_nil_iff]
      intro p hp
      have hpk := hmem p hp
      rw [hk] at hpk
      simp at hpk ⊢
      omega
    have htk : truthy (some k) = true := by
      simp [truthy]
      omega
    rw [hk]
    rw [if_pos htk]
    unfold clearTimeout setTimeout
    simp only [Option.getD_some]
    rw [hpend]
    simp
  · have hnone : s.timeoutId = none := by
      cases hts : s.timeoutId with
      | none => rfl
      | some k =>
        exfalso
        apply ht
        have := hpos k hts
        simp [truthy, hts]
        omega
    have hpend : s.pendingTimers = [] := by
      cases hp : s.pendingTimers with
      | nil => rfl
      | cons p l =>
        have hm := hmem p (by rw [hp]; exact List.mem_cons_self p l)
        rw [hnone] at hm
        cases hm
    simp [ht, setTimeout, hpend]

lemma timerInv_step (oracle : Nat → FetchOutcome) (f : Form) (t : Nat) (s : FormState)
    (h : TimerInv s) : TimerInv (stepEv oracle f s t) := by
  have h' := timerInv_fireDue oracle f t s h
  obtain ⟨h1, h2, h3, h4⟩ := h'
  rw [stepEv, handleEvent]
  by_cases hf : falsyUrl f.saveUrl
  · unfold scheduleSave
    rw [hf]
    simp only [if_true]
    exact ⟨h1, h2, h3, h4⟩
  · rw [scheduleSave_eq f t _ (by simpa using hf) h2 h4]
    refine ⟨by simp, ?_, by simp, ?_⟩
    · intro p hp
      rw [List.mem_singleton] at hp
      subst hp
      rfl
    · intro j hj
      have : (fireDue oracle f t s).nextId = j := by
        simpa using hj
      omega

lemma timerInv_foldl (oracle : Nat → FetchOutcome) (f : Form) (L : List Nat) :
    ∀ s : FormState, TimerInv s → TimerInv (L.foldl (stepEv oracle f) s) := by
  induction L with
  | nil => intro s h; exact h
  | cons t L ih => intro s h; exact ih _ (timerInv_step oracle f t s h)

/-- The event that ends a quiet period: the single pending timer is due,
so it fires (issuing its call), and the handler then performs a no-op
`clearTimeout` on the expired id and schedules a fresh timer. -/
lemma quiet_step (oracle : Nat → FetchOutcome) (f : Form) (url : String)
    (hu : f.saveUrl = some url) (hne : url ≠ "") (T u0 k : Nat) (c : List NetworkCall)
    (hk : 0 < k) (hT : T ≤ u0) :
    stepEv oracle f ⟨some k, [(k, T)], k + 1, c⟩ u0 =
      ⟨some (k + 1), [(k + 1, u0 + 800)], k + 1 + 1, c ++ [mkCall oracle f T]⟩ := by
  have hk' : k ≠ 0 := by omega
  simp [stepEv, handleEvent, fireDue, scheduleSave, setTimeout, clearTimeout,
    truthy, falsyUrl, hu, hne, hk', hT]

/-- An event on a different form leaves this form's slot untouched. -/
lemma dispatch_frame (oracle : Nat → FetchOutcome) (D : List Form) (st : Nat → FormState)
    (e : Ev) (j : Nat) (h : e.formId ≠ j) :
    dispatch oracle D st e j = st j := by
  cases hf : findForm (autosaveForms D) e.formId with
  | none => simp [dispatch, hf]
  | some f => simp [dispatch, hf, Ne.symm h]

/-- Dispatch reads and writes only the target slot, so states agreeing
on a slot keep agreeing there. -/
lemma dispatch_agree (oracle : Nat → FetchOutcome) (D : List Form)
    (st₁ st₂ : Nat → FormState) (e : Ev) (j : Nat) (h : st₁ j = st₂ j) :
    dispatch oracle D st₁ e j = dispatch oracle D st₂ e j := by
  cases hf : findForm (autosaveForms D) e.formId with
  | none => simp [dispatch, hf, h]
  | some f =>
    by_cases hj : j = e.formId
    · subst hj
      simp [dispatch, hf, h]
    · simp [dispatch, hf, hj, h]

lemma foldl_agree (oracle : Nat → FetchOutcome) (D : List Form) (E : List Ev) :
    ∀ (st₁ st₂ : Nat → FormState) (j : Nat), st₁ j = st₂ j →
      E.foldl (dispatch oracle D) st₁ j = E.foldl (dispatch oracle D) st₂ j := by
  induction E with
  | nil => intro _ _ _ h; exact h
  | cons e E ih =>
    intro st₁ st₂ j h
    exact ih _ _ j (dispatch_agree oracle D st₁ st₂ e j h)

/-- A form's slot after a run depends only on the events addressed to
that form. -/
lemma foldl_proj (oracle : Nat → FetchOutcome) (D : List Form) (j : Nat) (E : List Ev) :
    ∀ st : Nat → FormState,
      E.foldl (dispatch oracle D) st j =
        (E.filter (fun e => decide (e.formId = j))).foldl (dispatch oracle D) st j := by
  induction E with
  | nil => intro st; rfl
  | cons e E ih =>
    intro st
    by_cases he : e.formId = j
    · rw [List.filter_cons_of_pos (by simpa using he), List.foldl_cons, List.foldl_cons]
      exact ih (dispatch oracle D st e)
    · rw [List.filter_cons_of_neg (by simpa using he), List.foldl_cons,
        ih (dispatch oracle D st e)]
      exact foldl_agree oracle D _ _ _ j (dispatch_frame oracle D st e j he)

/-- A form the initialization query did not capture has no listeners: no
event, whatever its target, ever changes its slot. -/
lemma dispatch_no_listener (oracle : Nat → FetchOutcome) (D : List Form)
    (st : Nat → FormState) (e : Ev) (j : Nat)
    (h : findForm (autosaveForms D) j = none) :
    dispatch oracle D st e j = st j := by
  by_cases he : e.formId = j
  · subst he
    simp [dispatch, h]
  · exact dispatch_frame oracle D st e j he

lemma foldl_no_listener (oracle : Nat → FetchOutcome) (D : List Form) (j : Nat)
    (h : findForm (autosaveForms D) j = none) (E : List Ev) :
    ∀ st : Nat → FormState, E.foldl (dispatch oracle D) st j = st j := by
  induction E with
  | nil => intro st; rfl
  | cons e E ih =>
    intro st
    rw [List.foldl_cons, ih, dispatch_no_listener oracle D st e j h]

/-- C1: for a form with a declared save endpoint, a burst of N ≥ 1
input/change events, each arriving less than 800 ms after the previous
one, yields exactly one network call, issued 800 ms after the last event
of the burst: every earlier timer is cancelled and only the last one
fires. -/
theorem debounce_burst_single_call (oracle : Nat → FetchOutcome) (f : Form) (url : String)
    (hu : f.saveUrl = some url) (hne : url ≠ "") (t0 : Nat) (L : List Nat)
    (hch : List.Chain BurstRel t0 L) :
    (runForm oracle f (t0 :: L)).calls = [mkCall oracle f (L.getLastD t0 + 800)] := by
  rw [runForm, List.foldl_cons, first_event oracle f url hu hne t0,
    fold_burst oracle f url hu hne L t0 1 [] one_pos hch]
  simp [finalFire]

/-- Witness for C1, the spec scenario: endpoint /save/42, typing at 0 ms
and 300 ms, one POST at 1100 ms. -/
theorem debounce_burst_single_call_witness :
    (runForm allSuccess demoForm (0 :: [300])).calls =
      [mkCall allSuccess demoForm ([300].getLastD 0 + 800)] :=
  debounce_burst_single_call allSuccess demoForm "/save/42" rfl (by decide) 0 [300]
    (List.Chain.cons ⟨by decide, by decide⟩ List.Chain.nil)

/-- C2: the payload of every sent call is the snapshot of the form's
field values at the moment the timer fires, not at scheduling time. -/
theorem payload_snapshot_at_fire (oracle : Nat → FetchOutcome) (f : Form) (L : List Nat) :
    ∀ c ∈ (runForm oracle f L).calls, c.body = f.fields c.time := by
  intro c hc
  rw [runForm_callsOK oracle f L c hc]
  rfl

/-- Witness for C2: the field passes through "a", "ab", "abc" inside one
quiet window; the single call fires at 1200 ms and carries only "abc". -/
theorem payload_snapshot_at_fire_witness :
    mkCall allSuccess demoForm3 1200 ∈ (runForm allSuccess demoForm3 [0, 200, 400]).calls ∧
    (mkCall allSuccess demoForm3 1200).body =
      demoForm3.fields (mkCall allSuccess demoForm3 1200).time ∧
    (mkCall allSuccess demoForm3 1200).body = [("note", "abc")] :=
  ⟨by decide,
   payload_snapshot_at_fire allSuccess demoForm3 [0, 200, 400]
     (mkCall allSuccess demoForm3 1200) (by decide),
   by decide⟩

/-- C3: a form that declares no save endpoint is inert: every input or
change event does nothing — after any event sequence the state is still
pristine (no timer ever created, no call ever issued). -/
theorem no_endpoint_inert (oracle : Nat → FetchOutcome) (f : Form) (L : List Nat)
    (h : f.saveUrl = none) :
    L.foldl (stepEv oracle f) initFormState = initFormState ∧
    runForm oracle f L = initFormState := by
  have hf : falsyUrl f.saveUrl = true := by rw [h]; rfl
  exact ⟨inert_foldl oracle f hf L, inert_run oracle f hf L⟩

/-- Witness for C3: three events on an endpoint-less form leave the
pristine state untouched. -/
theorem no_endpoint_inert_witness :
    [0, 100, 900].foldl (stepEv allSuccess plainForm) initFormState = initFormState ∧
    runForm allSuccess plainForm [0, 100, 900] = initFormState :=
  no_endpoint_inert allSuccess plainForm [0, 100, 900] rfl

/-- C4: invariant preserved by every event handler and timer expiry: a
form owns at most one pending (unexpired, uncancelled) timer at any
time — after any event sequence, and after the remaining timer fires. -/
theorem at_most_one_pending_timer (oracle : Nat → FetchOutcome) (f : Form) (L : List Nat) :
    (L.foldl (stepEv oracle f) initFormState).pendingTimers.length ≤ 1 ∧
    (runForm oracle f L).pendingTimers.length ≤ 1 := by
  have h := timerInv_foldl oracle f L initFormState timerInv_init
  refine ⟨h.1, ?_⟩
  rw [runForm]
  simp [finalFire]

/-- C5: transport failure is fully suppressed: the run — timers, calls,
later autosave cycles — is identical under any transport outcomes, and
every send's promise settles fulfilled, so no rejection ever escapes. -/
theorem network_failure_suppressed (o₁ o₂ : Nat → FetchOutcome) (f : Form) (L : List Nat) :
    runForm o₁ f L = runForm o₂ f L ∧
    ∀ c ∈ (runForm o₁ f L).calls, c.outcome = PromiseState.fulfilled := by
  refine ⟨runForm_oracle o₁ o₂ f L, ?_⟩
  intro c hc
  rw [runForm_callsOK o₁ f L c hc]
  simp [mkCall, sendPromise_fulfilled]

/-- Witness for C5: with every transport failing, the run equals the
all-success run (the 800 ms call still happens and the next cycle at
1800 ms too), and the failed send's promise is fulfilled. -/
theorem network_failure_suppressed_witness :
    runForm allFail demoForm [0, 1000] = runForm allSuccess demoForm [0, 1000] ∧
    (mkCall allFail demoForm 800).outcome = PromiseState.fulfilled :=
  ⟨(network_failure_suppressed allFail allSuccess demoForm [0, 1000]).1,
   (network_failure_suppressed allFail allSuccess demoForm [0, 1000]).2
     (mkCall allFail demoForm 800) (by decide)⟩

/-- C6: every call the autosave trigger issues is a POST to the declared
endpoint, carries the X-Requested-With: fetch background marker header,
has the form-encoded field set as body, and the run ignores the response
entirely (it is unchanged under any transport outcomes). -/
theorem call_shape_post_marked (oracle : Nat → FetchOutcome) (f : Form) (url : String)
    (L : List Nat) (hu : f.saveUrl = some url) :
    (∀ c ∈ (runForm oracle f L).calls,
        c.method = "POST" ∧ c.url = url ∧
        c.headers = [("X-Requested-With", "fetch")] ∧
        c.body = f.fields c.time) ∧
    runForm oracle f L = runForm allSuccess f L := by
  refine ⟨?_, runForm_oracle oracle allSuccess f L⟩
  intro c hc
  rw [runForm_callsOK oracle f L c hc]
  refine ⟨rfl, ?_, rfl, rfl⟩
  simp [mkCall, hu]

/-- Witness for C6: the call of the spec scenario under an all-failure
oracle is a marked POST to /save/42, and the run equals the all-success
run. -/
theorem call_shape_post_marked_witness :
    ((mkCall allFail demoForm 1100).method = "POST" ∧
     (mkCall allFail demoForm 1100).url = "/save/42" ∧
     (mkCall allFail demoForm 1100).headers = [("X-Requested-With", "fetch")] ∧
     (mkCall allFail demoForm 1100).body =
       demoForm.fields (mkCall allFail demoForm 1100).time) ∧
    runForm allFail demoForm [0, 300] = runForm allSuccess demoForm [0, 300] :=
  ⟨(call_shape_post_marked allFail demoForm "/save/42" [0, 300] rfl).1
     (mkCall allFail demoForm 1100) (by decide),
   (call_shape_post_marked allFail demoForm "/save/42" [0, 300] rfl).2⟩

/-- C7: forms are processed independently: after any sequence of DOM
events, a form's state equals what it would be had only the events
addressed to that form been dispatched — events on other forms never
touch its timers and never cause or cancel a call for it. -/
theorem forms_processed_independently (oracle : Nat → FetchOutcome) (initialDoc : List Form)
    (E : List Ev) (j : Nat) :
    docStates oracle initialDoc E j =
      docStates oracle initialDoc (E.filter (fun e => decide (e.formId = j))) j := by
  rw [docStates, docStates]
  exact foldl_proj oracle initialDoc j E _

/-- C8: a save-endpoint attribute present but equal to the empty string
is treated exactly like an absent attribute: the endpoint check is a
falsiness test, so the form is fully inert. -/
theorem empty_url_inert (oracle : Nat → FetchOutcome) (f : Form) (L : List Nat)
    (h : f.saveUrl = some "") :
    runForm oracle f L = runForm oracle { f with saveUrl := none } L ∧
    runForm oracle f L = initFormState := by
  have h1 : runForm oracle f L = initFormState := by
    apply inert_run
    rw [h]
    rfl
  have h2 : runForm oracle { f with saveUrl := none } L = initFormState :=
    inert_run oracle { f with saveUrl := none } rfl L
  exact ⟨h1.trans h2.symm, h1⟩

/-- Witness for C8: the empty-string-endpoint form behaves like the same
form with the attribute removed, and stays pristine. -/
theorem empty_url_inert_witness :
    runForm allSuccess emptyUrlForm [0, 100] =
      runForm allSuccess { emptyUrlForm with saveUrl := none } [0, 100] ∧
    runForm allSuccess emptyUrlForm [0, 100] = initFormState :=
  empty_url_inert allSuccess emptyUrlForm [0, 100] rfl

/-- C9: the autosaved set is fixed once, by the single initialization
query for the marker class: a form id the query did not capture — in
particular a form added to the document afterwards — has no listeners,
so no events ever change its state or produce a call for it, whatever
endpoint it declares. -/
theorem late_form_never_autosaved (oracle : Nat → FetchOutcome) (initialDoc : List Form)
    (E : List Ev) (j : Nat) (h : findForm (autosaveForms initialDoc) j = none) :
    docStates oracle initialDoc E j = initFormState ∧
    (docStates oracle initialDoc E j).calls = [] := by
  have h1 : docStates oracle initialDoc E j = initFormState :=
    foldl_no_listener oracle initialDoc j h E _
  exact ⟨h1, by rw [h1]; rfl⟩

/-- Witness for C9: a document initialized with only form 1; events
addressed to a later form id 6 never autosave it. -/
theorem late_form_never_autosaved_witness :
    docStates allSuccess [demoForm] [⟨0, .input, 6⟩, ⟨100, .change, 6⟩] 6 = initFormState ∧
    (docStates allSuccess [demoForm] [⟨0, .input, 6⟩, ⟨100, .change, 6⟩] 6).calls = [] :=
  late_form_never_autosaved allSuccess [demoForm] [⟨0, .input, 6⟩, ⟨100, .change, 6⟩] 6 rfl

/-- C10: after a timer fires, the stored handle keeps the expired id (it
is never reset to null); the first event of the next burst clears that
expired id — a no-op — and still schedules a fresh 800 ms timer, so
every later quiet period yields its own send: firing is not one-shot. -/
theorem stale_handle_still_reschedules (oracle : Nat → FetchOutcome) (f : Form) (url : String)
    (hu : f.saveUrl = some url) (hne : url ≠ "")
    (t0 : Nat) (L1 : List Nat) (h1 : List.Chain BurstRel t0 L1)
    (u0 : Nat) (L2 : List Nat) (h2 : List.Chain BurstRel u0 L2)
    (hgap : L1.getLastD t0 + 800 ≤ u0) :
    ((t0 :: L1).foldl (stepEv oracle f) initFormState).timeoutId = some (1 + L1.length) ∧
    (fireDue oracle f u0 ((t0 :: L1).foldl (stepEv oracle f) initFormState)).timeoutId =
      some (1 + L1.length) ∧
    (runForm oracle f ((t0 :: L1) ++ u0 :: L2)).calls =
      [mkCall oracle f (L1.getLastD t0 + 800), mkCall oracle f (L2.getLastD u0 + 800)] := by
  have hs1 : (t0 :: L1).foldl (stepEv oracle f) initFormState =
      ⟨some (1 + L1.length), [(1 + L1.length, L1.getLastD t0 + 800)], 1 + L1.length + 1, []⟩ := by
    rw [List.foldl_cons, first_event oracle f url hu hne t0,
      fold_burst oracle f url hu hne L1 t0 1 [] one_pos h1]
  refine ⟨by rw [hs1], by rw [fireDue_timeoutId, hs1], ?_⟩
  rw [runForm, List.foldl_append, hs1, List.foldl_cons,
    quiet_step oracle f url hu hne (L1.getLastD t0 + 800) u0 (1 + L1.length) []
      (by omega) hgap]
  rw [fold_burst oracle f url hu hne L2 u0 (1 + L1.length + 1)
      ([] ++ [mkCall oracle f (L1.getLastD t0 + 800)]) (by omega) h2]
  simp [finalFire]

/-- Witness for C10: one event at 0 ms, the timer fires at 800 ms, a
second event right at 800 ms reuses the stale handle and produces a
second send at 1600 ms. -/
theorem stale_handle_still_reschedules_witness :
    (([0] : List Nat).foldl (stepEv allSuccess demoForm) initFormState).timeoutId = some 1 ∧
    (fireDue allSuccess demoForm 800
      (([0] : List Nat).foldl (stepEv allSuccess demoForm) initFormState)).timeoutId =
      some 1 ∧
    (runForm allSuccess demoForm ([0] ++ [800])).calls =
      [mkCall allSuccess demoForm 800, mkCall allSuccess demoForm 1600] :=
  stale_handle_still_reschedules allSuccess demoForm "/save/42" rfl (by decide)
    0 [] List.Chain.nil 800 [] List.Chain.nil (by decide)

end ShiftDetail
